import Mathlib

/-
Verification development for the ordered-list (enum) node of the typst
library slice and two documentation helpers.

Definitions are translated from:
  src/library/src/basics/enum.rs   (EnumNode, EnumNumbering and their impls)
  src/crates/typst-docs/src/lib.rs (urlify, split_details_and_example)

Types living outside those two files (NumberingPattern, the style chain,
grid layout, value casts for external types) are modelled from the spec and
carry a doc comment saying so.
-/

/-- A source span; only carried along for provenance, never inspected. -/
abbrev Span : Type := Nat

/-- A spanned error, the payload of `SourceResult`. -/
structure SourceError where
  span : Span
  msg : String
deriving DecidableEq, Repr

/-- The largest value of `usize` on the 64-bit targets the crate builds for. -/
def USIZE_MAX : Nat := 2 ^ 64 - 1

/-- `NonZeroUsize::saturating_add(1)`: adds one, saturating at `usize::MAX`. -/
def satAdd1 (n : Nat) : Nat := min (n + 1) USIZE_MAX

/-- Rust `as i64` conversion of a `usize` value: reduce mod 2^64, then
reinterpret the high range as negative numbers. -/
def asI64 (n : Nat) : Int :=
  let m : Nat := n % 2 ^ 64
  if m < 2 ^ 63 then (m : Int) else (m : Int) - 2 ^ 64

/-- Modelled from the spec: the read-only world accessor (§ GLOSSARY) for
fonts and library metadata; its content is opaque to the enum node. -/
structure World where
  libId : Nat
deriving DecidableEq, Repr

/-- Modelled from the spec: `Vt` bundles the world accessor with further
compiler state; the enum code only ever reads `vt.world()`, so the rest is
abstracted into one opaque component. -/
structure Vt where
  world : World
  extra : Nat
deriving DecidableEq, Repr

/-- Modelled from the spec: the evaluation virtual machine handed to
`construct`; the enum constructor ignores it. -/
structure Vm where
  vmId : Nat
deriving DecidableEq, Repr

/-- A length with an absolute part (hundredths of a point) and a
font-relative part (hundredths of an em). -/
structure Length where
  abs : Int
  em : Int
deriving DecidableEq, Repr

/-- `Length::zero()`. -/
def Length.zero : Length := ⟨0, 0⟩

/-- `Em::new(x / 100).into()`: a purely font-relative length, given in
hundredths of an em. -/
def emLength (x : Int) : Length := ⟨0, x⟩

/-- `Smart<T>`: either the `auto` sentinel or a concrete value. -/
inductive Smart (α : Type) : Type where
  | auto : Smart α
  | custom (v : α) : Smart α
deriving DecidableEq, Repr

/-- `Smart::unwrap_or_else`. -/
def Smart.unwrapOrElse (s : Smart α) (f : Unit → α) : α :=
  match s with
  | .auto => f ()
  | .custom v => v

/-- `Spacing`: relative spacing or fractional spacing. -/
inductive Spacing : Type where
  | rel (l : Length) : Spacing
  | fr (f : Int) : Spacing
deriving DecidableEq, Repr

/-- `TrackSizing`: the sizing spec of one grid track (§4.5). -/
inductive TrackSizing : Type where
  | auto : TrackSizing
  | relative (l : Length) : TrackSizing
  | fractional (f : Int) : TrackSizing
deriving DecidableEq, Repr

/-- `Spacing -> TrackSizing` conversion used for grid gutters. -/
def Spacing.intoTrack : Spacing → TrackSizing
  | .rel l => .relative l
  | .fr f => .fractional f

/-- A generic pair of per-axis data. -/
structure Axes (α : Type) where
  x : α
  y : α
deriving DecidableEq, Repr

/-- `Axes::with_x`: data on the x axis, default (empty) on the y axis. -/
def Axes.withX (v : List α) : Axes (List α) := ⟨v, []⟩

/-- `Axes::with_y`: data on the y axis, default (empty) on the x axis. -/
def Axes.withY (v : List α) : Axes (List α) := ⟨[], v⟩

/-- Modelled from the spec (§3): available layout space; the enum node just
forwards it, so its fields are never inspected here. -/
structure Regions where
  sizeX : Int
  sizeY : Int
  expandX : Bool
  expandY : Bool
  backlog : List Int
deriving DecidableEq, Repr

/-! ### Numbering patterns

`NumberingPattern` lives in `crate::compute`, outside the given sources.
It is modelled from the spec (§4.6): a parsed alternation of literal text
and counting-symbol placeholders, applied to a counter sequence by
formatting each counter with its (cyclically reused) segment. Only the
applying behaviour is consumed by the enum node, so a pattern is modelled
by its apply function. -/

/-- Modelled from the spec (§4.6): a numbering pattern, represented by the
function applying it to a counter sequence. -/
abbrev NumberingPattern : Type := List Nat → String

/-- The placeholder symbols selecting a counting style and case. -/
def isCountingSymbol (c : Char) : Bool :=
  c = '1' || c = 'a' || c = 'A' || c = 'i' || c = 'I'

/-- Bijective base-26 rendering, with explicit fuel so that it is
structurally recursive (the fuel never runs out when it starts at `n`). -/
def lowerAlphaAux : Nat → Nat → String
  | 0, _ => ""
  | fuel + 1, n =>
    match n with
    | 0 => ""
    | m + 1 => lowerAlphaAux fuel (m / 26) ++ String.mk [Char.ofNat (97 + m % 26)]

/-- Bijective base-26 rendering used by the alphabetic counting style. -/
def lowerAlpha (n : Nat) : String := lowerAlphaAux n n

/-- Greedy table for roman numerals. -/
def romanTable : List (Nat × String) :=
  [(1000, "m"), (900, "cm"), (500, "d"), (400, "cd"), (100, "c"), (90, "xc"),
   (50, "l"), (40, "xl"), (10, "x"), (9, "ix"), (5, "v"), (4, "iv"), (1, "i")]

/-- Greedy roman-numeral rendering over a value table. -/
def romanAux : List (Nat × String) → Nat → String
  | [], _ => ""
  | (v, s) :: rest, n => String.join (List.replicate (n / v) s) ++ romanAux rest (n % v)

/-- Lower-case roman numerals. -/
def lowerRoman (n : Nat) : String := romanAux romanTable n

/-- Format one counter with the counting style selected by a symbol. -/
def formatSymbol (c : Char) (n : Nat) : String :=
  if c = '1' then toString n
  else if c = 'a' then lowerAlpha n
  else if c = 'A' then (lowerAlpha n).toUpper
  else if c = 'i' then lowerRoman n
  else if c = 'I' then (lowerRoman n).toUpper
  else ""

/-- Split a pattern string into (literal, symbol) segments and a trailing
literal suffix; the first argument accumulates the pending literal
(reversed). -/
def parseSegsAux : List Char → List Char → List (String × Char) × String
  | lit, [] => ([], String.mk lit.reverse)
  | lit, c :: rest =>
    if isCountingSymbol c then
      let (segs, sfx) := parseSegsAux [] rest
      ((String.mk lit.reverse, c) :: segs, sfx)
    else
      parseSegsAux (c :: lit) rest

/-- Modelled from the spec (§4.6): the apply function of the pattern parsed
from a format string — each counter is formatted with its segment, segments
are cycled when fewer segments than counters exist, and the trailing
literal is appended once. -/
def patternOf (s : String) : NumberingPattern := fun ns =>
  let parsed := parseSegsAux [] s.data
  match parsed.1 with
  | [] => parsed.2
  | sg :: more =>
    String.join (((List.range ns.length).zip ns).map (fun p =>
      let seg := (sg :: more).getD (p.1 % (sg :: more).length) sg
      seg.1 ++ formatSymbol seg.2 p.2)) ++ parsed.2

/-- Modelled from the spec (§4.6): `NumberingPattern::from_str`; a string
without any counting symbol has no placeholder segment and is rejected
(invariant: segment count ≥ 1). -/
def NumberingPattern.fromStr (s : String) : Except String NumberingPattern :=
  if s.data.any isCountingSymbol then .ok (patternOf s) else .error "invalid numbering pattern"

/-! ### The value / content / style knot

`Value`, `Content`, style maps, `EnumNumbering`, function values and the
enum node itself are mutually recursive. Function values are only ever
called with integer argument lists in this program (`Args::new(span,
[Value::Int(..)])`), so a function value is modelled by its action on the
world, the call span and an integer argument list. -/

mutual

/-- The closed runtime value type (§3), restricted to the variants the
sources touch. -/
inductive Value : Type where
  | none : Value
  | bool (b : Bool) : Value
  | int (i : Int) : Value
  | str (s : String) : Value
  | content (c : Content) : Value
  | func (f : Func) : Value
  | array (xs : List Value) : Value
  | dict (xs : List (String × Value)) : Value

/-- Content nodes: the empty node, packed text (`TextNode::packed`), a
subtree with an attached style map (`styled_with_map`), and a packed enum
node (`EnumNode::pack`). -/
inductive Content : Type where
  | empty : Content
  | text (s : String) : Content
  | styled (c : Content) (m : StyleMap) : Content
  | enum (n : EnumNode) : Content

/-- Modelled from the spec (§4.2): one style scope — per-property optional
overrides for the properties the enum layout consults.  `textSize` stands
for the external text-size property against which resolve-mode lengths are
resolved. -/
inductive StyleMap : Type where
  | mk (enumNumbering : Option EnumNumbering)
       (enumIndent : Option Length)
       (enumBodyIndent : Option Length)
       (enumSpacing : Option (Smart Spacing))
       (parLeading : Option Length)
       (blockBelowAmount : Option Spacing)
       (textSize : Option Int) : StyleMap

/-- How to number an enumeration: a pattern, or a closure with its span. -/
inductive EnumNumbering : Type where
  | pattern (p : NumberingPattern) : EnumNumbering
  | func (f : Func) (span : Span) : EnumNumbering

/-- A first-class function value, modelled by its detached-call behaviour
on (world, call span, integer arguments). -/
inductive Func : Type where
  | mk (call : World → Span → List Int → Except SourceError Value) : Func

/-- The ordered-list node: a tight flag and the numbered items, each item
paired with the style map attached at its position (`StyleVec`). -/
inductive EnumNode : Type where
  | mk (tight : Bool) (items : List ((Option Nat × Content) × StyleMap)) : EnumNode

end

/-- `Func::call_detached`. -/
def Func.call : Func → World → Span → List Int → Except SourceError Value
  | .mk f => f

/-- The tight flag of an enum node. -/
def EnumNode.tight : EnumNode → Bool
  | .mk t _ => t

/-- The items of an enum node, with their attached style maps. -/
def EnumNode.items : EnumNode → List ((Option Nat × Content) × StyleMap)
  | .mk _ i => i

/-- The numbering override of a scope. -/
def StyleMap.enumNumbering : StyleMap → Option EnumNumbering
  | .mk a _ _ _ _ _ _ => a

/-- The enum `INDENT` override of a scope. -/
def StyleMap.enumIndent : StyleMap → Option Length
  | .mk _ a _ _ _ _ _ => a

/-- The enum `BODY_INDENT` override of a scope. -/
def StyleMap.enumBodyIndent : StyleMap → Option Length
  | .mk _ _ a _ _ _ _ => a

/-- The enum `SPACING` override of a scope. -/
def StyleMap.enumSpacing : StyleMap → Option (Smart Spacing)
  | .mk _ _ _ a _ _ _ => a

/-- The paragraph `LEADING` override of a scope. -/
def StyleMap.parLeading : StyleMap → Option Length
  | .mk _ _ _ _ a _ _ => a

/-- The block `BELOW.amount` override of a scope. -/
def StyleMap.blockBelowAmount : StyleMap → Option Spacing
  | .mk _ _ _ _ _ a _ => a

/-- The text-size override of a scope. -/
def StyleMap.textSize : StyleMap → Option Int
  | .mk _ _ _ _ _ _ a => a

/-- The empty style map (no overrides). -/
def StyleMap.empty : StyleMap :=
  .mk Option.none Option.none Option.none Option.none Option.none Option.none Option.none

/-- `content.styled_with_map(map)`: attach a style map to a subtree. -/
def Content.styledWithMap (c : Content) (m : StyleMap) : Content := Content.styled c m

/-- Modelled from the spec (§3, §4.2): a style chain is a sequence of
scopes, innermost first; lookup walks outward to the declared default. -/
structure StyleChain where
  maps : List StyleMap

/-- The default `NUMBERING` property value:
`EnumNumbering::Pattern(NumberingPattern::from_str("1.").unwrap())`
(the string `"1."` contains a counting symbol, so `from_str` succeeds). -/
def defaultEnumNumbering : EnumNumbering := EnumNumbering.pattern (patternOf "1.")

/-- Modelled from the spec (§4.2): the text size consulted by resolve-mode
lengths; the property itself is external, its default is fixed here at 10
points. -/
def StyleChain.textSize (c : StyleChain) : Int :=
  (c.maps.findSome? StyleMap.textSize).getD 10

/-- Modelled from the spec (§4.2): resolve a raw length against the chain
(the `em` part scales with the current text size); the result is in
hundredths of a point. -/
def StyleChain.resolveLength (c : StyleChain) (l : Length) : Int :=
  l.abs * 100 + l.em * c.textSize

/-- `styles.get(EnumNode::NUMBERING)` (referenced mode, default `"1."`). -/
def StyleChain.getNumbering (c : StyleChain) : EnumNumbering :=
  (c.maps.findSome? StyleMap.enumNumbering).getD defaultEnumNumbering

/-- `styles.get(EnumNode::INDENT)` (resolve mode, default zero). -/
def StyleChain.getIndent (c : StyleChain) : Int :=
  c.resolveLength ((c.maps.findSome? StyleMap.enumIndent).getD Length.zero)

/-- `styles.get(EnumNode::BODY_INDENT)` (resolve mode, default 0.5 em). -/
def StyleChain.getBodyIndent (c : StyleChain) : Int :=
  c.resolveLength ((c.maps.findSome? StyleMap.enumBodyIndent).getD (emLength 50))

/-- `styles.get(EnumNode::SPACING)` (plain mode, default `auto`). -/
def StyleChain.getSpacing (c : StyleChain) : Smart Spacing :=
  (c.maps.findSome? StyleMap.enumSpacing).getD Smart.auto

/-- Modelled from the spec: `styles.get(ParNode::LEADING)` — the paragraph
leading property is external; resolve mode, default 0.65 em. -/
def StyleChain.getParLeading (c : StyleChain) : Int :=
  c.resolveLength ((c.maps.findSome? StyleMap.parLeading).getD (emLength 65))

/-- Modelled from the spec: `styles.get(BlockNode::BELOW).amount` — the
below-block spacing is external; default 1.2 em of relative spacing. -/
def StyleChain.getBlockBelowAmount (c : StyleChain) : Spacing :=
  (c.maps.findSome? StyleMap.blockBelowAmount).getD (Spacing.rel (emLength 120))

/-- Modelled from the spec (§4.6, §6): `Value::display` turns a callback's
return value into content; content passes through unchanged, plain data
becomes its textual representation. -/
def Value.display : Value → Content
  | .content c => c
  | .str s => Content.text s
  | .int i => Content.text (toString i)
  | .bool b => Content.text (toString b)
  | .none => Content.empty
  | .func _ => Content.empty
  | .array _ => Content.empty
  | .dict _ => Content.empty

/-- The consumable argument list handed to `construct` (§3): a source span,
named arguments and positional arguments. -/
structure Args where
  span : Span
  named : List (String × Value)
  positional : List Value

/-- Look up a named argument. -/
def Args.findNamed (args : Args) (name : String) : Option Value :=
  (args.named.find? (fun p => p.1 = name)).map Prod.snd

/-- Modelled from the spec (§4.1): the cast accepting a `NonZeroUsize` —
a positive integer that fits `usize`. -/
def castNonZeroUsize : Value → Except String Nat
  | .int i => if 1 ≤ i ∧ i ≤ (USIZE_MAX : Int) then .ok i.toNat else .error "number must be positive"
  | _ => .error "expected integer"

/-- Modelled from the spec (§4.1): the cast accepting a boolean. -/
def castBool : Value → Except String Bool
  | .bool b => .ok b
  | _ => .error "expected boolean"

/-- Modelled from the spec (§4.1): the cast accepting content (plain
strings are accepted as text content). -/
def castContent : Value → Except String Content
  | .content c => .ok c
  | .str s => .ok (Content.text s)
  | _ => .error "expected content"

/-- `args.named::<T>(name)?`: absent names yield `none`, a failing cast is
an error tagged with the argument list's span. -/
def Args.namedCast (args : Args) (name : String) (cast : Value → Except String α) :
    Except SourceError (Option α) :=
  match args.findNamed name with
  | Option.none => .ok Option.none
  | some v =>
    match cast v with
    | .ok a => .ok (some a)
    | .error m => .error ⟨args.span, m⟩

/-- Cast a list of values to content one by one, stopping at the first
failing cast (tagged with the argument list's span). -/
def castAll (sp : Span) : List Value → Except SourceError (List Content)
  | [] => .ok []
  | v :: rest =>
    match castContent v with
    | .error m => .error ⟨sp, m⟩
    | .ok c =>
      match castAll sp rest with
      | .error e => .error e
      | .ok cs => .ok (c :: cs)

/-- `args.all::<Content>()?`: every remaining positional argument cast to
content. -/
def Args.allContents (args : Args) : Except SourceError (List Content) :=
  castAll args.span args.positional

/-- The item list built by `EnumNode::construct`: each body is paired with
`Some(number)`, and the running number is bumped with `saturating_add(1)`;
collecting into a `StyleVec` attaches the empty style map. -/
def assignNumbers (start : Nat) : List Content → List ((Option Nat × Content) × StyleMap)
  | [] => []
  | b :: rest => ((some start, b), StyleMap.empty) :: assignNumbers (satAdd1 start) rest

/-- `EnumNode::construct`: consume `start` (default 1) and `tight`
(default true) from the named arguments, collect the variadic positional
items, number them from `start` and pack the node. -/
def EnumNode.construct (_vm : Vm) (args : Args) : Except SourceError Content :=
  match args.namedCast "start" castNonZeroUsize with
  | .error e => .error e
  | .ok startOpt =>
    match args.namedCast "tight" castBool with
    | .error e => .error e
    | .ok tightOpt =>
      match args.allContents with
      | .error e => .error e
      | .ok bodies =>
        .ok (Content.enum (EnumNode.mk (tightOpt.getD true)
          (assignNumbers (startOpt.getD 1) bodies)))

/-- `EnumNode::field`: reflective access to the stored fields. -/
def EnumNode.field (node : EnumNode) (name : String) : Option Value :=
  match name with
  | "tight" => some (Value.bool node.tight)
  | "items" => some (Value.array (node.items.map (fun x =>
      Value.dict
        [("number", match x.1.1 with
          | some n => Value.int (asI64 n)
          | Option.none => Value.none),
         ("body", Value.content x.1.2)])))
  | _ => Option.none

/-- `EnumNumbering::resolve`: a pattern is applied to the single counter
and packed as text; a closure is called detachedly with
`Args::new(span, [Value::Int(number as i64)])` and its result displayed. -/
def EnumNumbering.resolve (en : EnumNumbering) (vt : Vt) (number : Nat) :
    Except SourceError Content :=
  match en with
  | .pattern p => .ok (Content.text (p [number]))
  | .func f span => (f.call vt.world span [asI64 number]).map Value.display

/-- A value together with its source span. -/
structure Spanned where
  v : Value
  span : Span

/-- `EnumNumbering::is`: the membership test of the `Cast` impl, exactly
as written in the source (it matches content and function values). -/
def EnumNumbering.is (value : Spanned) : Bool :=
  match value.v with
  | .content _ => true
  | .func _ => true
  | _ => false

/-- `EnumNumbering::cast`: strings are parsed as patterns (parse failures
propagate), functions are taken with their span, everything else is the
"expected string or function" cast error derived from `describe()`. -/
def EnumNumbering.cast (value : Spanned) : Except String EnumNumbering :=
  match value.v with
  | .str s => (NumberingPattern.fromStr s).map EnumNumbering.pattern
  | .func f => .ok (EnumNumbering.func f value.span)
  | _ => .error "expected string or function"

/-- The type-description protocol (§3). -/
inductive CastInfo : Type where
  | typeOf (s : String) : CastInfo
  | union (l : List CastInfo) : CastInfo

/-- `EnumNumbering::describe`: the declared union (string, function). -/
def EnumNumbering.describe : CastInfo :=
  CastInfo.union [CastInfo.typeOf "string", CastInfo.typeOf "function"]

/-- The grid node handed off by the enum layout. -/
structure GridNode where
  tracks : Axes (List TrackSizing)
  gutter : Axes (List TrackSizing)
  cells : List Content

/-- Modelled from the spec (§4.4, §4.5): the fragment produced by grid
layout.  Grid layout itself is external to the given sources, so a
fragment records the grid and the inputs it was laid out against. -/
inductive Fragment : Type where
  | grid (g : GridNode) (world : World) (styles : StyleChain) (regions : Regions) : Fragment

/-- Modelled from the spec (§4.5): `GridNode::layout` — the external grid
track-sizing algorithm, recorded as the fragment of the handed-off call
(it reads the world through `vt`). -/
def GridNode.layout (g : GridNode) (vt : Vt) (styles : StyleChain) (regions : Regions) :
    Except SourceError Fragment :=
  .ok (Fragment.grid g vt.world styles regions)

/-- The four column tracks the enum layout always emits: relative indent,
auto numbering, relative body indent, auto body. -/
def enumTracks (styles : StyleChain) : Axes (List TrackSizing) :=
  Axes.withX
    [TrackSizing.relative ⟨styles.getIndent, 0⟩, TrackSizing.auto,
     TrackSizing.relative ⟨styles.getBodyIndent, 0⟩, TrackSizing.auto]

/-- The row gutter of the enum grid: paragraph leading when tight,
otherwise the `SPACING` property or, when `auto`, the below-block amount. -/
def enumGutter (tight : Bool) (styles : StyleChain) : Spacing :=
  if tight then Spacing.rel ⟨styles.getParLeading, 0⟩
  else (styles.getSpacing).unwrapOrElse (fun _ => styles.getBlockBelowAmount)

/-- The cell-building loop of `EnumNode::layout`: per item, take the
explicit number or the running counter, resolve the marker, push the four
cells (empty, styled marker, empty, styled body) and bump the counter with
`saturating_add(1)`. -/
def layoutCells (numbering : EnumNumbering) (vt : Vt) :
    Nat → List ((Option Nat × Content) × StyleMap) → Except SourceError (List Content)
  | _, [] => Except.ok []
  | cur, x :: rest =>
    match numbering.resolve vt (x.1.1.getD cur) with
    | .error e => .error e
    | .ok resolved =>
      match layoutCells numbering vt (satAdd1 (x.1.1.getD cur)) rest with
      | .error e => .error e
      | .ok tail =>
        .ok (Content.empty :: Content.styledWithMap resolved x.2 ::
             Content.empty :: Content.styledWithMap x.1.2 x.2 :: tail)

/-- `EnumNode::layout`: build the cells, then lay out the four-column grid
with the computed row gutter. -/
def EnumNode.layout (node : EnumNode) (vt : Vt) (styles : StyleChain) (regions : Regions) :
    Except SourceError Fragment :=
  match layoutCells styles.getNumbering vt 1 node.items with
  | .error e => .error e
  | .ok cells =>
    GridNode.layout
      ⟨enumTracks styles, Axes.withY [(enumGutter node.tight styles).intoTrack], cells⟩
      vt styles regions

/-- The sequence of numbers the layout loop hands to `resolve`, starting
from a given running counter. -/
def enumNumbersFrom (cur : Nat) : List (Option Nat) → List Nat
  | [] => []
  | n :: rest =>
    let used := n.getD cur
    used :: enumNumbersFrom (satAdd1 used) rest

/-- The numbers used to render the items of a node (counter starts at 1). -/
def enumLayoutNums (node : EnumNode) : List Nat :=
  enumNumbersFrom 1 (node.items.map (fun x => x.1.1))

/-- Following the claim's words (C1): the running counter becomes the
number just used plus one, with no saturation. -/
def claimNumbersFrom (cur : Nat) : List (Option Nat) → List Nat
  | [] => []
  | n :: rest =>
    let used := n.getD cur
    used :: claimNumbersFrom (used + 1) rest

/-- The four cells one item contributes to the grid, given its resolved
marker. -/
def itemRow (m : Content) (x : (Option Nat × Content) × StyleMap) : List Content :=
  [Content.empty, Content.styledWithMap m x.2, Content.empty, Content.styledWithMap x.1.2 x.2]

/-- Following the claim's words (C6): the marker of an item would be
resolved under the chain extended with the item's own style map, and then
carry that map. -/
def claimItemMarker (styles : StyleChain) (m : StyleMap) (vt : Vt) (n : Nat) :
    Except SourceError Content :=
  (StyleChain.mk (m :: styles.maps)).getNumbering.resolve vt n |>.map
    (fun c => c.styledWithMap m)

/-- Whether an `Except` holds a success value. -/
def isOkE : Except ε α → Bool
  | .ok _ => true
  | .error _ => false

/-! ### Documentation helpers (crates/typst-docs/src/lib.rs) -/

/-- The backtick character. -/
def tickChar : Char := Char.ofNat 96

/-- Whether a character list starts with three backticks. -/
def startsWithTicks (l : List Char) : Bool :=
  match l with
  | a :: b :: c :: _ => a = tickChar && b = tickChar && c = tickChar
  | _ => false

/-- `docs.find("```")`: index of the first occurrence of three backticks. -/
def findTriple : List Char → Option Nat
  | [] => Option.none
  | a :: rest =>
    if startsWithTicks (a :: rest) then some 0
    else (findTriple rest).map (· + 1)

/-- The `while docs[..i].ends_with('`')` loop: walk the index back over
backticks directly before it. -/
def backUp (l : List Char) : Nat → Nat
  | 0 => 0
  | i + 1 => if l.get? i = some tickChar then backUp l i else i + 1

/-- `split_details_and_example`: split documentation at the first code
fence into details and an example. -/
def splitDetailsAndExample (docs : String) : String × Option String :=
  match findTriple docs.data with
  | Option.none => (docs, Option.none)
  | some i0 =>
    let i := backUp docs.data i0
    (String.mk (docs.data.take i), some (String.mk (docs.data.drop i)))

/-- Rust `char::to_ascii_lowercase`. -/
def toAsciiLower (c : Char) : Char :=
  if 'A' ≤ c ∧ c ≤ 'Z' then Char.ofNat (c.toNat + 32) else c

/-- The fallback character sanitization of `urlify`: keep ASCII lowercase
letters and digits, replace everything else by a hyphen. -/
def urlifyChar (c : Char) : Char :=
  if ('a' ≤ c ∧ c ≤ 'z') ∨ ('0' ≤ c ∧ c ≤ '9') then c else '-'

/-- `urlify`: turn a title into an URL fragment — fixed translations for
the known Chinese titles, otherwise lowercase and sanitize per character. -/
def urlify (title : String) : String :=
  match title with
  | "教程" => "tutorial"
  | "使用 Typst 写作" => "writing-in-typst"
  | "格式" => "formatting"
  | "高级样式" => "advanced-styling"
  | "制作模板" => "making-a-template"
  | "中文用户指南" => "chinese"
  | "参考" => "reference"
  | "语法" => "syntax"
  | "样式" => "styling"
  | "脚本" => "scripting"
  | "指南" => "guides"
  | "LaTeX 用户指南" => "guide-for-latex-users"
  | "页面设置指南" => "page-setup"
  | "更新日志" => "changelog"
  | "路线图" => "roadmap"
  | "社区" => "community"
  | "术语表" => "glossary"
  | _ => String.mk (title.data.map (fun c => urlifyChar (toAsciiLower c)))

/-- Following the (amended) claim's words (C4): one detached call per item
number, in item order, each with the single argument `number as i64`, the
first error short-circuiting the rest. -/
def callEach (f : Func) (w : World) (sp : Span) : List Nat → Except SourceError (List Content)
  | [] => .ok []
  | n :: rest =>
    match (f.call w sp [asI64 n]).map Value.display with
    | .error e => .error e
    | .ok m =>
      match callEach f w sp rest with
      | .error e => .error e
      | .ok ms => .ok (m :: ms)

/-- The fragment a successful layout call produced (with a harmless
placeholder in the error case); used to name concrete fragments in
witnesses. -/
def fragOf (node : EnumNode) (vt : Vt) (styles : StyleChain) (regions : Regions) : Fragment :=
  match EnumNode.layout node vt styles regions with
  | .ok f => f
  | .error _ => Fragment.grid ⟨⟨[], []⟩, ⟨[], []⟩, []⟩ vt.world styles regions

/-! ### Helper lemmas -/

theorem enumNumbersFrom_length (l : List (Option Nat)) :
    ∀ cur, (enumNumbersFrom cur l).length = l.length := by
  induction l with
  | nil => intro cur; rfl
  | cons n rest ih => intro cur; simp [enumNumbersFrom, ih]

theorem enumNumbersFrom_get (l : List (Option Nat)) :
    ∀ cur i, i < l.length →
      (enumNumbersFrom cur l).get? i =
        some ((l.getD i Option.none).getD
          (if i = 0 then cur else satAdd1 ((enumNumbersFrom cur l).getD (i - 1) 0))) := by
  induction l with
  | nil => intro cur i hi; cases hi
  | cons n rest ih =>
    intro cur i hi
    match i with
    | 0 => simp [enumNumbersFrom]
    | 1 =>
      have h := ih (satAdd1 (n.getD cur)) 0
        (by simp only [List.length_cons] at hi; omega)
      simpa [enumNumbersFrom] using h
    | j + 2 =>
      have h := ih (satAdd1 (n.getD cur)) (j + 1)
        (by simp only [List.length_cons] at hi; omega)
      simpa [enumNumbersFrom] using h

theorem layoutCells_ok_spec (numbering : EnumNumbering) (vt : Vt) :
    ∀ (items : List ((Option Nat × Content) × StyleMap)) (cur : Nat) (cs : List Content),
      layoutCells numbering vt cur items = .ok cs →
      ∃ rows : List (List Content),
        cs = rows.flatten ∧ rows.length = items.length ∧
        ∀ i, i < items.length →
          ∃ n m x,
            (enumNumbersFrom cur (items.map (fun y => y.1.1))).get? i = some n ∧
            numbering.resolve vt n = .ok m ∧
            items.get? i = some x ∧
            rows.get? i = some (itemRow m x) := by
  intro items
  induction items with
  | nil =>
    intro cur cs h
    cases h
    exact ⟨[], rfl, rfl, fun i hi => absurd hi (Nat.not_lt_zero i)⟩
  | cons x rest ih =>
    intro cur cs h
    rw [layoutCells] at h
    split at h
    · exact Except.noConfusion h
    next resolved hres =>
      split at h
      · exact Except.noConfusion h
      next tail htail =>
        obtain ⟨rows, hjoin, hlen, hspec⟩ := ih (satAdd1 (x.1.1.getD cur)) tail htail
        injection h with h'
        refine ⟨itemRow resolved x :: rows, ?_, by simp [hlen], ?_⟩
        · rw [← h', hjoin]; simp [itemRow]
        · intro i hi
          match i with
          | 0 =>
            exact ⟨x.1.1.getD cur, resolved, x, by simp [enumNumbersFrom], hres, rfl, rfl⟩
          | j + 1 =>
            obtain ⟨n, m, y, h1, h2, h3, h4⟩ := hspec j
              (by simp only [List.length_cons] at hi; omega)
            exact ⟨n, m, y, by simpa [enumNumbersFrom] using h1, h2, by simpa using h3,
              by simpa using h4⟩

theorem layout_ok_elim (node : EnumNode) (vt : Vt) (styles : StyleChain) (regions : Regions)
    (frag : Fragment) (h : EnumNode.layout node vt styles regions = .ok frag) :
    ∃ cells, layoutCells styles.getNumbering vt 1 node.items = .ok cells ∧
      frag = Fragment.grid
        ⟨enumTracks styles, Axes.withY [(enumGutter node.tight styles).intoTrack], cells⟩
        vt.world styles regions := by
  unfold EnumNode.layout at h
  split at h
  · exact Except.noConfusion h
  next cells hcells =>
    unfold GridNode.layout at h
    injection h with h'
    exact ⟨cells, hcells, h'.symm⟩

theorem enumGutter_tight (styles : StyleChain) :
    enumGutter true styles = Spacing.rel ⟨styles.getParLeading, 0⟩ := rfl

theorem enumGutter_wide_custom (styles : StyleChain) (sp : Spacing)
    (h : styles.getSpacing = Smart.custom sp) : enumGutter false styles = sp := by
  simp [enumGutter, h, Smart.unwrapOrElse]

theorem enumGutter_wide_auto (styles : StyleChain)
    (h : styles.getSpacing = Smart.auto) :
    enumGutter false styles = styles.getBlockBelowAmount := by
  simp [enumGutter, h, Smart.unwrapOrElse]

theorem resolve_world (en : EnumNumbering) (vt1 vt2 : Vt) (n : Nat)
    (h : vt1.world = vt2.world) : en.resolve vt1 n = en.resolve vt2 n := by
  cases en <;> simp [EnumNumbering.resolve, h]

theorem layoutCells_world (numbering : EnumNumbering) (vt1 vt2 : Vt)
    (h : vt1.world = vt2.world) :
    ∀ (items : List ((Option Nat × Content) × StyleMap)) (cur : Nat),
      layoutCells numbering vt1 cur items = layoutCells numbering vt2 cur items := by
  intro items
  induction items with
  | nil => intro cur; rfl
  | cons x rest ih =>
    intro cur
    rw [layoutCells, layoutCells, resolve_world numbering vt1 vt2 _ h, ih]

theorem layoutCells_func (f : Func) (sp : Span) (vt : Vt) :
    ∀ (items : List ((Option Nat × Content) × StyleMap)) (cur : Nat),
      layoutCells (EnumNumbering.func f sp) vt cur items =
        match callEach f vt.world sp (enumNumbersFrom cur (items.map (fun y => y.1.1))) with
        | .error e => .error e
        | .ok ms => .ok ((List.zipWith itemRow ms items).flatten) := by
  intro items
  induction items with
  | nil => intro cur; rfl
  | cons x rest ih =>
    intro cur
    rw [layoutCells]
    simp only [List.map_cons, enumNumbersFrom, callEach]
    rw [show (EnumNumbering.func f sp).resolve vt (x.1.1.getD cur) =
          (f.call vt.world sp [asI64 (x.1.1.getD cur)]).map Value.display from rfl]
    cases hm : (f.call vt.world sp [asI64 (x.1.1.getD cur)]).map Value.display with
    | error e => rfl
    | ok m =>
      rw [ih (satAdd1 (x.1.1.getD cur))]
      cases callEach f vt.world sp
          (enumNumbersFrom (satAdd1 (x.1.1.getD cur)) (rest.map (fun y => y.1.1))) with
      | error e => rfl
      | ok ms => simp [itemRow]

theorem castAll_contents (sp : Span) (bodies : List Content) :
    castAll sp (bodies.map Value.content) = .ok bodies := by
  induction bodies with
  | nil => rfl
  | cons b rest ih => simp [castAll, castContent, ih]

theorem assignNumbers_get (bodies : List Content) :
    ∀ s, s ≤ USIZE_MAX → ∀ i, i < bodies.length →
      ∃ b, bodies.get? i = some b ∧
        (assignNumbers s bodies).get? i =
          some ((some (min (s + i) USIZE_MAX), b), StyleMap.empty) := by
  induction bodies with
  | nil => intro s _ i hi; cases hi
  | cons b rest ih =>
    intro s hs i hi
    match i with
    | 0 =>
      refine ⟨b, rfl, ?_⟩
      simp only [assignNumbers, List.get?_cons_zero, Option.some.injEq]
      have : min (s + 0) USIZE_MAX = s := by omega
      rw [this]
    | j + 1 =>
      have hs' : satAdd1 s ≤ USIZE_MAX := by simp [satAdd1]
      obtain ⟨c, h1, h2⟩ := ih (satAdd1 s) hs' j
        (by simp only [List.length_cons] at hi; omega)
      refine ⟨c, by simpa using h1, ?_⟩
      simp only [assignNumbers, List.get?_cons_succ]
      rw [h2]
      have : min (satAdd1 s + j) USIZE_MAX = min (s + (j + 1)) USIZE_MAX := by
        simp only [satAdd1, USIZE_MAX] at *
        omega
      rw [this]

theorem assignNumbers_bodies (bodies : List Content) :
    ∀ s, (assignNumbers s bodies).map (fun x => x.1.2) = bodies := by
  induction bodies with
  | nil => intro s; rfl
  | cons b rest ih => intro s; simp [assignNumbers, ih]

theorem assignNumbers_length (bodies : List Content) :
    ∀ s, (assignNumbers s bodies).length = bodies.length := by
  induction bodies with
  | nil => intro s; rfl
  | cons b rest ih => intro s; simp [assignNumbers, ih]

theorem startsWithTicks_iff (l : List Char) :
    startsWithTicks l = true ↔
      ∃ v, l = [tickChar, tickChar, tickChar] ++ v := by
  match l with
  | [] => simp [startsWithTicks]
  | [a] => simp [startsWithTicks]
  | [a, b] => simp [startsWithTicks]
  | a :: b :: c :: r =>
    simp only [startsWithTicks, Bool.and_eq_true, decide_eq_true_eq]
    constructor
    · rintro ⟨⟨h1, h2⟩, h3⟩
      exact ⟨r, by simp [h1, h2, h3]⟩
    · rintro ⟨v, hv⟩
      simp only [List.cons_append, List.nil_append, List.cons.injEq] at hv
      obtain ⟨h1, h2, h3, _⟩ := hv
      exact ⟨⟨h1, h2⟩, h3⟩

theorem findTriple_isSome_iff (l : List Char) :
    (findTriple l).isSome = true ↔
      ∃ u v, l = u ++ [tickChar, tickChar, tickChar] ++ v := by
  induction l with
  | nil =>
    simp only [findTriple, Option.isSome_none, Bool.false_eq_true, false_iff]
    rintro ⟨u, v, hv⟩
    cases u <;> simp at hv
  | cons a rest ih =>
    by_cases hs : startsWithTicks (a :: rest) = true
    · simp only [findTriple, hs, if_true, Option.isSome_some, true_iff]
      obtain ⟨v, hv⟩ := (startsWithTicks_iff _).mp hs
      exact ⟨[], v, by simpa using hv⟩
    · simp only [findTriple, hs, Bool.false_eq_true, if_false, Option.isSome_map']
      rw [ih]
      constructor
      · rintro ⟨u, v, hv⟩
        exact ⟨a :: u, v, by simp [hv]⟩
      · rintro ⟨u, v, hv⟩
        match u with
        | [] =>
          exfalso
          apply hs
          rw [startsWithTicks_iff]
          exact ⟨v, by simpa using hv⟩
        | b :: u' =>
          simp only [List.cons_append, List.cons.injEq] at hv
          exact ⟨u', v, hv.2⟩

/-! ### Concrete inputs used by witnesses and counterexamples -/

/-- A concrete `Vt`. -/
def vt0 : Vt := ⟨⟨0⟩, 0⟩

/-- The empty style chain (every property at its default). -/
def chain0 : StyleChain := ⟨[]⟩

/-- A concrete region description. -/
def regions0 : Regions := ⟨10000, 20000, false, false, []⟩

/-- A list with an auto item, an explicit `10`, and another auto item. -/
def node1 : EnumNode :=
  EnumNode.mk true
    [((Option.none, Content.empty), StyleMap.empty),
     ((some 10, Content.empty), StyleMap.empty),
     ((Option.none, Content.empty), StyleMap.empty)]

/-- A list whose first item carries the explicit number `usize::MAX`,
followed by an auto item. -/
def nodeSat : EnumNode :=
  EnumNode.mk true
    [((some USIZE_MAX, Content.empty), StyleMap.empty),
     ((Option.none, Content.empty), StyleMap.empty)]

/-! ### C1 -/

/-- C1 (amended): for every list laid out by `EnumNode.layout`, the number
used to render item `i` is its explicit number when present and otherwise
the running counter (starting at 1); after every item, explicit or not,
the running counter becomes the number just used plus one, **saturated at
`usize::MAX`** — so an explicit number re-bases all following auto-numbered
items.  The rendered marker of item `i` is the resolve of that number,
styled with the item's map. -/
theorem enum_layout_rebases_counter (node : EnumNode) (vt : Vt) (styles : StyleChain)
    (regions : Regions) (frag : Fragment)
    (h : EnumNode.layout node vt styles regions = .ok frag) :
    ∃ (g : GridNode) (rows : List (List Content)),
      frag = Fragment.grid g vt.world styles regions ∧
      g.cells = rows.flatten ∧ rows.length = node.items.length ∧
      (∀ i, i < node.items.length →
        ∃ n m x, (enumLayoutNums node).get? i = some n ∧
          (styles.getNumbering).resolve vt n = .ok m ∧
          node.items.get? i = some x ∧ rows.get? i = some (itemRow m x)) ∧
      (∀ i, i < node.items.length →
        (enumLayoutNums node).get? i =
          some (((node.items.map (fun y => y.1.1)).getD i Option.none).getD
            (if i = 0 then 1 else satAdd1 ((enumLayoutNums node).getD (i - 1) 0)))) := by
  obtain ⟨cells, hcells, hfrag⟩ := layout_ok_elim node vt styles regions frag h
  obtain ⟨rows, hflat, hlen, hspec⟩ :=
    layoutCells_ok_spec styles.getNumbering vt node.items 1 cells hcells
  refine ⟨⟨enumTracks styles, Axes.withY [(enumGutter node.tight styles).intoTrack], cells⟩,
    rows, hfrag, hflat, hlen, hspec, ?_⟩
  intro i hi
  have := enumNumbersFrom_get (node.items.map (fun y => y.1.1)) 1 i
    (by simpa using hi)
  simpa [enumLayoutNums] using this

/-- Witness for C1: the mixed list `node1` under the default styles. -/
theorem enum_layout_rebases_counter_witness :
    ∃ (g : GridNode) (rows : List (List Content)),
      fragOf node1 vt0 chain0 regions0 = Fragment.grid g vt0.world chain0 regions0 ∧
      g.cells = rows.flatten ∧ rows.length = node1.items.length ∧
      (∀ i, i < node1.items.length →
        ∃ n m x, (enumLayoutNums node1).get? i = some n ∧
          (chain0.getNumbering).resolve vt0 n = .ok m ∧
          node1.items.get? i = some x ∧ rows.get? i = some (itemRow m x)) ∧
      (∀ i, i < node1.items.length →
        (enumLayoutNums node1).get? i =
          some (((node1.items.map (fun y => y.1.1)).getD i Option.none).getD
            (if i = 0 then 1 else satAdd1 ((enumLayoutNums node1).getD (i - 1) 0)))) :=
  enum_layout_rebases_counter node1 vt0 chain0 regions0
    (fragOf node1 vt0 chain0 regions0) (by rfl)

/-- Counterexample for C1 as stated: with an explicit number `usize::MAX`
followed by an auto item, the claim's unsaturated counter demands the next
item be rendered with `usize::MAX + 1`, but the layout renders it with
`usize::MAX` again (the counter update is `saturating_add(1)`). -/
theorem enum_layout_rebases_counter_cex :
    claimNumbersFrom 1 [some USIZE_MAX, Option.none] = [USIZE_MAX, USIZE_MAX + 1] ∧
    enumLayoutNums nodeSat = [USIZE_MAX, USIZE_MAX] ∧
    defaultEnumNumbering.resolve vt0 (USIZE_MAX + 1) =
      .ok (Content.text "18446744073709551616.") ∧
    EnumNode.layout nodeSat vt0 chain0 regions0 =
      .ok (Fragment.grid
        ⟨enumTracks chain0, Axes.withY [(enumGutter true chain0).intoTrack],
         [Content.empty,
          Content.styled (Content.text "18446744073709551615.") StyleMap.empty,
          Content.empty, Content.styled Content.empty StyleMap.empty,
          Content.empty,
          Content.styled (Content.text "18446744073709551615.") StyleMap.empty,
          Content.empty, Content.styled Content.empty StyleMap.empty]⟩
        vt0.world chain0 regions0) ∧
    ("18446744073709551615." : String) ≠ "18446744073709551616." :=
  ⟨by decide, by decide, by rfl, by rfl, by decide⟩

/-! ### C2 -/

/-- C2 (amended): constructing an `EnumNode` from args with a named `start`
argument `s` (default 1 when absent) and `n` variadic content items stores
the items in the given order, each paired with an explicit number, and the
numbers are `s, s+1, ...` **saturated at `usize::MAX`** (the i-th number is
`min (s + i) usize::MAX`). -/
theorem enum_construct_start_numbers (vm : Vm) (args : Args) (bodies : List Content) (s : Nat)
    (hpos : args.positional = bodies.map Value.content)
    (htight : args.findNamed "tight" = Option.none)
    (hstart : (args.findNamed "start" = some (Value.int (s : Int)) ∧ 1 ≤ s ∧ s ≤ USIZE_MAX)
        ∨ (args.findNamed "start" = Option.none ∧ s = 1)) :
    EnumNode.construct vm args =
      .ok (Content.enum (EnumNode.mk true (assignNumbers s bodies))) ∧
    (assignNumbers s bodies).map (fun x => x.1.2) = bodies ∧
    (assignNumbers s bodies).length = bodies.length ∧
    (∀ i, i < bodies.length →
      ∃ b, bodies.get? i = some b ∧
        (assignNumbers s bodies).get? i =
          some ((some (min (s + i) USIZE_MAX), b), StyleMap.empty)) := by
  have hbound : s ≤ USIZE_MAX := by
    rcases hstart with ⟨_, _, h⟩ | ⟨_, h⟩
    · exact h
    · subst h; decide
  have htightCast : args.namedCast "tight" castBool = .ok Option.none := by
    unfold Args.namedCast
    rw [htight]
  have hall : args.allContents = .ok bodies := by
    unfold Args.allContents
    rw [hpos]
    exact castAll_contents args.span bodies
  refine ⟨?_, assignNumbers_bodies bodies s, assignNumbers_length bodies s,
    fun i hi => assignNumbers_get bodies s hbound i hi⟩
  unfold EnumNode.construct
  rcases hstart with ⟨hfind, h1, h2⟩ | ⟨hfind, hs1⟩
  · have hstartCast : args.namedCast "start" castNonZeroUsize = .ok (some s) := by
      unfold Args.namedCast
      rw [hfind]
      have hc : 1 ≤ (s : Int) ∧ (s : Int) ≤ (USIZE_MAX : Int) := by
        constructor <;> omega
      simp only [castNonZeroUsize, Nat.cast_pos, Nat.one_le_cast, Nat.cast_le, hc, and_self,
        if_pos, Int.toNat_natCast]
    rw [hstartCast, htightCast, hall]
    rfl
  · have hstartCast : args.namedCast "start" castNonZeroUsize = .ok Option.none := by
      unfold Args.namedCast
      rw [hfind]
    rw [hstartCast, htightCast, hall]
    subst hs1
    rfl

/-- Arguments: `start = 3` with three unnumbered content items. -/
def argsW : Args :=
  ⟨0, [("start", Value.int 3)],
   [Value.content (Content.text "a"), Value.content (Content.text "b"),
    Value.content (Content.text "c")]⟩

/-- The bodies carried by `argsW`. -/
def bodiesW : List Content := [Content.text "a", Content.text "b", Content.text "c"]

/-- Witness for C2: `start = 3` with three items yields numbers 3, 4, 5. -/
theorem enum_construct_start_numbers_witness :
    EnumNode.construct ⟨0⟩ argsW =
      .ok (Content.enum (EnumNode.mk true (assignNumbers 3 bodiesW))) ∧
    (assignNumbers 3 bodiesW).map (fun x => x.1.2) = bodiesW ∧
    (assignNumbers 3 bodiesW).length = bodiesW.length ∧
    (∀ i, i < bodiesW.length →
      ∃ b, bodiesW.get? i = some b ∧
        (assignNumbers 3 bodiesW).get? i =
          some ((some (min (3 + i) USIZE_MAX), b), StyleMap.empty)) :=
  enum_construct_start_numbers ⟨0⟩ argsW bodiesW 3 (by rfl) (by rfl)
    (Or.inl ⟨by rfl, by decide, by decide⟩)

/-- Arguments: `start = usize::MAX` with two content items. -/
def argsSat : Args :=
  ⟨0, [("start", Value.int (Int.ofNat USIZE_MAX))],
   [Value.content Content.empty, Value.content Content.empty]⟩

/-- Counterexample for C2 as stated: with `start = usize::MAX` and two
items, the claim demands numbers `usize::MAX, usize::MAX + 1`, but the
constructor stores `usize::MAX` twice (`saturating_add`). -/
theorem enum_construct_start_numbers_cex :
    EnumNode.construct ⟨0⟩ argsSat =
      .ok (Content.enum (EnumNode.mk true
        [((some USIZE_MAX, Content.empty), StyleMap.empty),
         ((some USIZE_MAX, Content.empty), StyleMap.empty)])) ∧
    USIZE_MAX ≠ USIZE_MAX + 1 :=
  ⟨by rfl, by decide⟩

/-! ### C3 -/

/-- C3: every fragment `EnumNode.layout` produces is exactly the layout of
a grid with four column tracks — relative resolved `INDENT`, auto (the
resolved numbering), relative resolved `BODY_INDENT`, auto (the body) —
with one 4-cell row group per item, and with the row gutter equal to the
paragraph leading when the node is tight, and otherwise to the `SPACING`
property or, when that is `auto`, the below-block spacing amount. -/
theorem enum_layout_grid_shape (node : EnumNode) (vt : Vt) (styles : StyleChain)
    (regions : Regions) (frag : Fragment)
    (h : EnumNode.layout node vt styles regions = .ok frag) :
    ∃ (g : GridNode) (rows : List (List Content)),
      frag = Fragment.grid g vt.world styles regions ∧
      g.tracks = Axes.withX
        [TrackSizing.relative ⟨styles.getIndent, 0⟩, TrackSizing.auto,
         TrackSizing.relative ⟨styles.getBodyIndent, 0⟩, TrackSizing.auto] ∧
      g.gutter = Axes.withY [(enumGutter node.tight styles).intoTrack] ∧
      (node.tight = true →
        enumGutter node.tight styles = Spacing.rel ⟨styles.getParLeading, 0⟩) ∧
      (node.tight = false → ∀ sp, styles.getSpacing = Smart.custom sp →
        enumGutter node.tight styles = sp) ∧
      (node.tight = false → styles.getSpacing = Smart.auto →
        enumGutter node.tight styles = styles.getBlockBelowAmount) ∧
      g.cells = rows.flatten ∧ rows.length = node.items.length ∧
      (∀ i, i < node.items.length →
        ∃ n m x, (enumLayoutNums node).get? i = some n ∧
          (styles.getNumbering).resolve vt n = .ok m ∧
          node.items.get? i = some x ∧
          rows.get? i = some [Content.empty, Content.styledWithMap m x.2,
            Content.empty, Content.styledWithMap x.1.2 x.2]) := by
  obtain ⟨cells, hcells, hfrag⟩ := layout_ok_elim node vt styles regions frag h
  obtain ⟨rows, hflat, hlen, hspec⟩ :=
    layoutCells_ok_spec styles.getNumbering vt node.items 1 cells hcells
  refine ⟨⟨enumTracks styles, Axes.withY [(enumGutter node.tight styles).intoTrack], cells⟩,
    rows, hfrag, rfl, rfl, ?_, ?_, ?_, hflat, hlen, hspec⟩
  · intro ht; rw [ht]; exact enumGutter_tight styles
  · intro ht sp hsp; rw [ht]; exact enumGutter_wide_custom styles sp hsp
  · intro ht hsp; rw [ht]; exact enumGutter_wide_auto styles hsp

/-- Witness for C3: the mixed list `node1` under the default styles. -/
theorem enum_layout_grid_shape_witness :
    ∃ (g : GridNode) (rows : List (List Content)),
      fragOf node1 vt0 chain0 regions0 = Fragment.grid g vt0.world chain0 regions0 ∧
      g.tracks = Axes.withX
        [TrackSizing.relative ⟨chain0.getIndent, 0⟩, TrackSizing.auto,
         TrackSizing.relative ⟨chain0.getBodyIndent, 0⟩, TrackSizing.auto] ∧
      g.gutter = Axes.withY [(enumGutter node1.tight chain0).intoTrack] ∧
      (node1.tight = true →
        enumGutter node1.tight chain0 = Spacing.rel ⟨chain0.getParLeading, 0⟩) ∧
      (node1.tight = false → ∀ sp, chain0.getSpacing = Smart.custom sp →
        enumGutter node1.tight chain0 = sp) ∧
      (node1.tight = false → chain0.getSpacing = Smart.auto →
        enumGutter node1.tight chain0 = chain0.getBlockBelowAmount) ∧
      g.cells = rows.flatten ∧ rows.length = node1.items.length ∧
      (∀ i, i < node1.items.length →
        ∃ n m x, (enumLayoutNums node1).get? i = some n ∧
          (chain0.getNumbering).resolve vt0 n = .ok m ∧
          node1.items.get? i = some x ∧
          rows.get? i = some [Content.empty, Content.styledWithMap m x.2,
            Content.empty, Content.styledWithMap x.1.2 x.2]) :=
  enum_layout_grid_shape node1 vt0 chain0 regions0
    (fragOf node1 vt0 chain0 regions0) (by rfl)

/-! ### C4 -/

/-- C4 (amended): when the numbering is a callback, `resolve` makes exactly
one detached call per item with the single argument
`Value::Int(number as i64)` (equal to the item's 1-based number whenever it
is below 2^63), the marker being the displayed result, and the whole
layout equals the per-item call trace: the first error a callback raises
propagates unchanged (as the same source error) out of `resolve` and out
of `EnumNode.layout`. -/
theorem enum_numbering_func_calls (f : Func) (sp : Span) (node : EnumNode) (vt : Vt)
    (styles : StyleChain) (regions : Regions)
    (h : styles.getNumbering = EnumNumbering.func f sp) :
    (∀ n, (EnumNumbering.func f sp).resolve vt n =
        (f.call vt.world sp [asI64 n]).map Value.display) ∧
    EnumNode.layout node vt styles regions =
      (match callEach f vt.world sp (enumLayoutNums node) with
       | .error e => .error e
       | .ok ms =>
         .ok (Fragment.grid
           ⟨enumTracks styles, Axes.withY [(enumGutter node.tight styles).intoTrack],
            (List.zipWith itemRow ms node.items).flatten⟩ vt.world styles regions)) := by
  refine ⟨fun n => rfl, ?_⟩
  unfold EnumNode.layout
  rw [h, layoutCells_func f sp vt node.items 1]
  unfold enumLayoutNums
  cases callEach f vt.world sp (enumNumbersFrom 1 (node.items.map (fun y => y.1.1))) with
  | error e => rfl
  | ok ms => rfl

/-- A callback adding 100 to its argument. -/
def funW : Func := Func.mk (fun _ _ args => .ok (Value.int (args.getD 0 0 + 100)))

/-- A scope overriding the numbering with the callback `funW`. -/
def mapFunW : StyleMap :=
  StyleMap.mk (some (EnumNumbering.func funW 5)) Option.none Option.none Option.none
    Option.none Option.none Option.none

/-- A chain whose numbering is the callback `funW`. -/
def chainW : StyleChain := ⟨[mapFunW]⟩

/-- Witness for C4: the callback chain on the mixed list `node1`. -/
theorem enum_numbering_func_calls_witness :
    (∀ n, (EnumNumbering.func funW 5).resolve vt0 n =
        (funW.call vt0.world 5 [asI64 n]).map Value.display) ∧
    EnumNode.layout node1 vt0 chainW regions0 =
      (match callEach funW vt0.world 5 (enumLayoutNums node1) with
       | .error e => .error e
       | .ok ms =>
         .ok (Fragment.grid
           ⟨enumTracks chainW, Axes.withY [(enumGutter node1.tight chainW).intoTrack],
            (List.zipWith itemRow ms node1.items).flatten⟩ vt0.world chainW regions0)) :=
  enum_numbering_func_calls funW 5 node1 vt0 chainW regions0 (by rfl)

/-- A callback rendering its first argument as text. -/
def funC4 : Func := Func.mk (fun _ _ args => .ok (Value.str (toString (args.getD 0 0))))

/-- A scope overriding the numbering with the callback `funC4`. -/
def mapFunC4 : StyleMap :=
  StyleMap.mk (some (EnumNumbering.func funC4 5)) Option.none Option.none Option.none
    Option.none Option.none Option.none

/-- A chain whose numbering is the callback `funC4`. -/
def chainC4 : StyleChain := ⟨[mapFunC4]⟩

/-- A single item with the explicit number `usize::MAX`. -/
def nodeSatOne : EnumNode :=
  EnumNode.mk true [((some USIZE_MAX, Content.empty), StyleMap.empty)]

/-- Counterexample for C4 as stated: for the item number `usize::MAX` the
callback is invoked with `-1` (the `as i64` wrap of the number), not with
the item's 1-based number — the rendered marker differs from the one the
claim's call would produce. -/
theorem enum_numbering_func_calls_cex :
    asI64 USIZE_MAX = -1 ∧
    EnumNode.layout nodeSatOne vt0 chainC4 regions0 =
      .ok (Fragment.grid
        ⟨enumTracks chainC4, Axes.withY [(enumGutter true chainC4).intoTrack],
         [Content.empty, Content.styled (Content.text "-1") StyleMap.empty,
          Content.empty, Content.styled Content.empty StyleMap.empty]⟩
        vt0.world chainC4 regions0) ∧
    (funC4.call vt0.world 5 [Int.ofNat USIZE_MAX]).map Value.display =
      .ok (Content.text "18446744073709551615") ∧
    Content.text "-1" ≠ Content.text "18446744073709551615" := by
  refine ⟨by decide, by rfl, by rfl, ?_⟩
  intro h
  injection h with h'
  exact absurd h' (by decide)

/-! ### C5 -/

/-- C5 (amended): `EnumNode.field` returns a value for exactly the names
"tight" (the boolean flag) and "items" (an array of dictionaries with
"number" — the item's number **converted to a signed 64-bit integer,
wrapping**, or none — and "body" entries), and `none` for every other
name; it is total, never an error. -/
theorem enum_field_spec (node : EnumNode) :
    EnumNode.field node "tight" = some (Value.bool node.tight) ∧
    EnumNode.field node "items" = some (Value.array (node.items.map (fun x =>
      Value.dict
        [("number", match x.1.1 with
          | some n => Value.int (asI64 n)
          | Option.none => Value.none),
         ("body", Value.content x.1.2)]))) ∧
    ∀ name, name ≠ "tight" → name ≠ "items" → EnumNode.field node name = Option.none := by
  refine ⟨rfl, rfl, ?_⟩
  intro name h1 h2
  unfold EnumNode.field
  split
  · exact absurd rfl h1
  · exact absurd rfl h2
  · rfl

/-- Witness for C5: the mixed list `node1` (and, per the last conjunct,
any unknown name such as "spacing" yields `none`). -/
theorem enum_field_spec_witness :
    (EnumNode.field node1 "tight" = some (Value.bool node1.tight) ∧
     EnumNode.field node1 "items" = some (Value.array (node1.items.map (fun x =>
       Value.dict
         [("number", match x.1.1 with
           | some n => Value.int (asI64 n)
           | Option.none => Value.none),
          ("body", Value.content x.1.2)]))) ∧
     ∀ name, name ≠ "tight" → name ≠ "items" → EnumNode.field node1 name = Option.none) ∧
    EnumNode.field node1 "spacing" = Option.none :=
  ⟨enum_field_spec node1, (enum_field_spec node1).2.2 "spacing" (by decide) (by decide)⟩

/-- Counterexample for C5 as stated: for an item with explicit number
`usize::MAX`, the "number" entry is the wrapped integer `-1`, not the
item's number. -/
theorem enum_field_spec_cex :
    EnumNode.field nodeSatOne "items" =
      some (Value.array [Value.dict
        [("number", Value.int (-1)), ("body", Value.content Content.empty)]]) ∧
    (-1 : Int) ≠ Int.ofNat USIZE_MAX :=
  ⟨by rfl, by decide⟩

/-! ### C6 -/

/-- C6 (amended): the marker of every item is resolved from the `NUMBERING`
of the style chain at the enum node itself; the item's attached style map
is applied to the already-resolved marker content (restyling the marker's
rendering), but it does not change which numbering resolves the marker. -/
theorem enum_marker_outer_chain (node : EnumNode) (vt : Vt) (styles : StyleChain)
    (regions : Regions) (frag : Fragment)
    (h : EnumNode.layout node vt styles regions = .ok frag) :
    ∃ (g : GridNode) (rows : List (List Content)),
      frag = Fragment.grid g vt.world styles regions ∧ g.cells = rows.flatten ∧
      rows.length = node.items.length ∧
      ∀ i x, node.items.get? i = some x →
        ∃ n m, (enumLayoutNums node).get? i = some n ∧
          (styles.getNumbering).resolve vt n = .ok m ∧
          rows.get? i = some [Content.empty, Content.styledWithMap m x.2,
            Content.empty, Content.styledWithMap x.1.2 x.2] := by
  obtain ⟨cells, hcells, hfrag⟩ := layout_ok_elim node vt styles regions frag h
  obtain ⟨rows, hflat, hlen, hspec⟩ :=
    layoutCells_ok_spec styles.getNumbering vt node.items 1 cells hcells
  refine ⟨⟨enumTracks styles, Axes.withY [(enumGutter node.tight styles).intoTrack], cells⟩,
    rows, hfrag, hflat, hlen, ?_⟩
  intro i x hx
  have hi : i < node.items.length := by
    by_contra hcon
    push_neg at hcon
    rw [List.get?_eq_none.mpr hcon] at hx
    exact Option.noConfusion hx
  obtain ⟨n, m, y, h1, h2, h3, h4⟩ := hspec i hi
  rw [hx] at h3
  injection h3 with h3
  subst h3
  exact ⟨n, m, h1, h2, h4⟩

/-- A scope overriding the numbering with the pattern `"(a)"`. -/
def mapC6 : StyleMap :=
  StyleMap.mk (some (EnumNumbering.pattern (patternOf "(a)"))) Option.none Option.none
    Option.none Option.none Option.none Option.none

/-- A single auto item carrying the style map `mapC6`. -/
def nodeC6 : EnumNode := EnumNode.mk true [((Option.none, Content.empty), mapC6)]

/-- Witness for C6: the item carrying a numbering override in its map is
still resolved under the enum node's own chain. -/
theorem enum_marker_outer_chain_witness :
    ∃ (g : GridNode) (rows : List (List Content)),
      fragOf nodeC6 vt0 chain0 regions0 = Fragment.grid g vt0.world chain0 regions0 ∧
      g.cells = rows.flatten ∧
      rows.length = nodeC6.items.length ∧
      ∀ i x, nodeC6.items.get? i = some x →
        ∃ n m, (enumLayoutNums nodeC6).get? i = some n ∧
          (chain0.getNumbering).resolve vt0 n = .ok m ∧
          rows.get? i = some [Content.empty, Content.styledWithMap m x.2,
            Content.empty, Content.styledWithMap x.1.2 x.2] :=
  enum_marker_outer_chain nodeC6 vt0 chain0 regions0
    (fragOf nodeC6 vt0 chain0 regions0) (by rfl)

/-- Counterexample for C6 as stated: an item whose own style map overrides
the numbering to `"(a)"` still gets its marker from the chain at the enum
node (default pattern `"1."`); the claim demands the marker resolved under
the chain extended with the item's map, which differs. -/
theorem enum_marker_outer_chain_cex :
    claimItemMarker chain0 mapC6 vt0 1 =
      .ok (Content.styled (Content.text "(a)") mapC6) ∧
    EnumNode.layout nodeC6 vt0 chain0 regions0 =
      .ok (Fragment.grid
        ⟨enumTracks chain0, Axes.withY [(enumGutter true chain0).intoTrack],
         [Content.empty, Content.styled (Content.text "1.") mapC6,
          Content.empty, Content.styled Content.empty mapC6]⟩
        vt0.world chain0 regions0) ∧
    Content.styled (Content.text "1.") mapC6 ≠ Content.styled (Content.text "(a)") mapC6 := by
  refine ⟨by rfl, by rfl, ?_⟩
  intro h
  injection h with h1 h2
  injection h1 with h3
  exact absurd h3 (by decide)

/-! ### C7 -/

/-- C7: `EnumNode.layout` is deterministic — it reads the compiler state
`vt` only through the immutable world accessor, so two invocations with
identical styles, regions and world state produce identical fragments,
whatever else differs in `vt`. -/
theorem enum_layout_world_deterministic (node : EnumNode) (vt1 vt2 : Vt)
    (styles : StyleChain) (regions : Regions) (h : vt1.world = vt2.world) :
    EnumNode.layout node vt1 styles regions = EnumNode.layout node vt2 styles regions := by
  unfold EnumNode.layout
  rw [layoutCells_world styles.getNumbering vt1 vt2 h node.items 1]
  cases layoutCells styles.getNumbering vt2 1 node.items with
  | error e => rfl
  | ok cells =>
    unfold GridNode.layout
    rw [h]

/-- Two `Vt`s sharing the world but differing in the rest of the state. -/
def vtA : Vt := ⟨⟨0⟩, 1⟩

/-- See `vtA`. -/
def vtB : Vt := ⟨⟨0⟩, 2⟩

/-- Witness for C7: the two distinct `Vt`s with equal worlds lay out the
mixed list identically. -/
theorem enum_layout_world_deterministic_witness :
    EnumNode.layout node1 vtA chain0 regions0 = EnumNode.layout node1 vtB chain0 regions0 :=
  enum_layout_world_deterministic node1 vtA vtB chain0 regions0 (by rfl)

/-! ### C8 -/

/-- C8 (code bug): `EnumNumbering::is` and `EnumNumbering::cast` disagree —
`is` rejects the string `"1."` although `cast` succeeds on it, and `is`
accepts content although `cast` fails on it; `cast` (not `is`) matches the
declared `describe()` union (string, function). -/
theorem enum_numbering_is_cast_mismatch :
    EnumNumbering.is ⟨Value.str "1.", 7⟩ = false ∧
    isOkE (EnumNumbering.cast ⟨Value.str "1.", 7⟩) = true ∧
    EnumNumbering.is ⟨Value.content Content.empty, 7⟩ = true ∧
    isOkE (EnumNumbering.cast ⟨Value.content Content.empty, 7⟩) = false ∧
    EnumNumbering.describe =
      CastInfo.union [CastInfo.typeOf "string", CastInfo.typeOf "function"] :=
  ⟨rfl, rfl, rfl, rfl, rfl⟩

/-! ### C9 -/

/-- C9: every character of the string `urlify` returns is an ASCII
lowercase letter, an ASCII digit, or a hyphen. -/
theorem urlify_chars_sanitized (title : String) (c : Char)
    (h : c ∈ (urlify title).data) :
    ('a' ≤ c ∧ c ≤ 'z') ∨ ('0' ≤ c ∧ c ≤ '9') ∨ c = '-' := by
  unfold urlify at h
  split at h <;>
    first
    | (revert c
       decide)
    | (simp only [List.mem_map] at h
       obtain ⟨a, _, rfl⟩ := h
       unfold urlifyChar
       split
       next hc =>
         rcases hc with h1 | h2
         · exact Or.inl h1
         · exact Or.inr (Or.inl h2)
       next => exact Or.inr (Or.inr rfl))

/-- Witness for C9: the character `h` of `urlify "Hello World!"`. -/
theorem urlify_chars_sanitized_witness :
    ('a' ≤ 'h' ∧ 'h' ≤ 'z') ∨ ('0' ≤ 'h' ∧ 'h' ≤ '9') ∨ 'h' = '-' :=
  urlify_chars_sanitized "Hello World!" 'h' (by decide)

/-! ### C10 -/

/-- C10: `split_details_and_example` splits documentation losslessly —
details concatenated with the example (or with the empty string when there
is none) give back the input exactly — and the example is present if and
only if the input contains the substring of three backticks. -/
theorem split_details_concat_fence (docs : String) :
    (splitDetailsAndExample docs).1 ++ ((splitDetailsAndExample docs).2.getD "") = docs ∧
    ((splitDetailsAndExample docs).2.isSome = true ↔
      ∃ u v, docs.data = u ++ [tickChar, tickChar, tickChar] ++ v) := by
  have hiff := findTriple_isSome_iff docs.data
  unfold splitDetailsAndExample
  cases hf : findTriple docs.data with
  | none =>
    constructor
    · show String.mk (docs.data ++ []) = docs
      rw [List.append_nil]
    · constructor
      · intro hcon
        exact Bool.noConfusion hcon
      · intro hex
        have h2 := hiff.mpr hex
        rw [hf] at h2
        exact h2
  | some i0 =>
    constructor
    · show String.mk (docs.data.take (backUp docs.data i0) ++
        docs.data.drop (backUp docs.data i0)) = docs
      rw [List.take_append_drop]
    · exact ⟨fun _ => hiff.mp (by rw [hf]; rfl), fun _ => rfl⟩
